import Mathlib

/-!
Verification of the domain-lookup repository: a shallow embedding of the
RDAP client, the WHOIS client, the fallback orchestrator `Checker.Check`
and the batch dispatcher `queryAll`, together with theorems settling the
specification claims.

Network effects (HTTP requests, the bootstrap fetch, the raw TCP WHOIS
exchange) are modelled as explicit oracle values supplied to the embedded
functions; library date parsing (`time.Parse`) is modelled as an abstract
parser `String → Option T` over an abstract timestamp type `T`, since no
claim inspects the value of a parsed date beyond presence.

The Go `strings` helpers used by the source are embedded as structurally
recursive functions over `String.data`, so that every definition reduces
inside the kernel on concrete inputs.
-/

/-- Models Go `strings.ToLower` (ASCII case folding suffices for every
string the claims exercise). -/
def strToLower (s : String) : String :=
  ⟨s.data.map Char.toLower⟩

/-- Models Go `strings.TrimSpace` on a character list. -/
def trimChars (l : List Char) : List Char :=
  ((l.dropWhile Char.isWhitespace).reverse.dropWhile Char.isWhitespace).reverse

/-- Models Go `strings.TrimSpace`. -/
def strTrim (s : String) : String :=
  ⟨trimChars s.data⟩

/-- Split a character list at every occurrence of the character `c`
(the Go `strings.Split` with a one-character separator, which is the only
shape the source uses). -/
def splitChar (c : Char) : List Char → List (List Char)
  | [] => [[]]
  | a :: rest =>
    if a = c then [] :: splitChar c rest
    else
      match splitChar c rest with
      | [] => [[a]]
      | h :: t => (a :: h) :: t

/-- Models Go `strings.Split s (String.singleton c)`. -/
def strSplitOnChar (s : String) (c : Char) : List String :=
  (splitChar c s.data).map (fun l => ⟨l⟩)

/-- Models Go `strings.HasPrefix`. -/
def strStartsWith (s p : String) : Bool :=
  p.data.isPrefixOf s.data

/-- Models Go `strings.HasSuffix`. -/
def strEndsWith (s p : String) : Bool :=
  p.data.reverse.isPrefixOf s.data.reverse

/-- Scan helper for `containsSub`: does `sub` occur as a contiguous run
of the list? -/
def containsSubAux (sub : List Char) : List Char → Bool
  | [] => sub.isEmpty
  | c :: rest => sub.isPrefixOf (c :: rest) || containsSubAux sub rest

/-- Models Go `strings.Contains s sub`. -/
def containsSub (s sub : String) : Bool :=
  containsSubAux sub.data s.data

/-- Models Go `strings.Join parts sep`. -/
def stringsJoin (sep : String) : List String → String
  | [] => ""
  | [s] => s
  | s :: rest => s ++ sep ++ stringsJoin sep rest

/-- Models Go `strings.TrimSuffix s sfx`. -/
def trimSuffix (s sfx : String) : String :=
  if strEndsWith s sfx then ⟨s.data.take (s.data.length - sfx.data.length)⟩
  else s

/-- Models Go `strings.SplitN s ":" 2` as used by `whoisField`. -/
def splitN2Colon (s : String) : List String :=
  match strSplitOnChar s ':' with
  | [] => []
  | [x] => [x]
  | x :: rest => [x, stringsJoin ":" rest]

deriving instance DecidableEq for Except

/-- Status constant from the source (`StatusRegistered`). -/
def StatusRegistered : String := "registered"

/-- Status constant from the source (`StatusAvailable`). -/
def StatusAvailable : String := "available"

/-- Status constant from the source (`StatusUnknown`). -/
def StatusUnknown : String := "unknown"

/-- The `Result` struct of the source.  Go zero values become the field
defaults; `Expiry *time.Time` becomes `Option T` for an abstract timestamp
type `T`; `Err` holds `err.Error()` when set. -/
structure Result (T : Type) where
  domain : String := ""
  status : String := ""
  registrar : String := ""
  expiry : Option T := none
  source : String := ""
  err : String := ""
deriving DecidableEq

instance (T : Type) : Inhabited (Result T) := ⟨{}⟩

/-- The static TLD → WHOIS server table `whoisServers`, as an association
list (the Go map has pairwise-distinct keys, so lookup agrees). -/
def whoisServers : List (String × String) :=
  [("ac", "whois.nic.ac"),
   ("ae", "whois.aeda.net.ae"),
   ("ai", "whois.nic.ai"),
   ("app", "whois.nic.google"),
   ("au", "whois.auda.org.au"),
   ("biz", "whois.biz"),
   ("ca", "whois.cira.ca"),
   ("cc", "ccwhois.verisign-grs.com"),
   ("cn", "whois.cnnic.cn"),
   ("co", "whois.nic.co"),
   ("com", "whois.verisign-grs.com"),
   ("de", "whois.denic.de"),
   ("dev", "whois.nic.google"),
   ("edu", "whois.educause.edu"),
   ("fr", "whois.nic.fr"),
   ("hk", "whois.hkirc.hk"),
   ("info", "whois.afilias.net"),
   ("io", "whois.nic.io"),
   ("jp", "whois.jprs.jp"),
   ("kr", "whois.kr"),
   ("me", "whois.nic.me"),
   ("mobi", "whois.dotmobiregistry.net"),
   ("net", "whois.verisign-grs.com"),
   ("org", "whois.pir.org"),
   ("ru", "whois.tcinet.ru"),
   ("sh", "whois.nic.sh"),
   ("so", "whois.nic.so"),
   ("tv", "tvwhois.verisign-grs.com"),
   ("uk", "whois.nic.uk"),
   ("us", "whois.nic.us"),
   ("xyz", "whois.nic.xyz")]

/-- The ordered `notRegisteredMarkers` list from the source. -/
def notRegisteredMarkers : List String :=
  ["no match for",
   "not found",
   "no entries found",
   "no data found",
   "object does not exist",
   "no objects found",
   "domain not found",
   "status: free",
   "available for registration",
   "this domain name has not been registered"]

/-- The ordered `registeredMarkers` list from the source. -/
def registeredMarkers : List String :=
  ["domain name:",
   "registrar:",
   "creation date:",
   "registered on:",
   "domain status:",
   "registrant:",
   "registry domain id:",
   "nserver:"]

/-- Line scan of `whoisField`: find the first line whose trimmed form
starts (case-insensitively) with `lowerField`, and return the trimmed text
after the first colon. -/
def whoisFieldGo (lowerField : String) : List String → String
  | [] => ""
  | line :: rest =>
    let trimmed := strTrim line
    if strStartsWith (strToLower trimmed) lowerField then
      match splitN2Colon trimmed with
      | [_, v] => strTrim v
      | _ => whoisFieldGo lowerField rest
    else whoisFieldGo lowerField rest

/-- `whoisField body field`: the value of the first line of `body` whose
trimmed form starts (case-insensitively) with `field ++ ":"`. -/
def whoisField (body field : String) : String :=
  whoisFieldGo (strToLower field ++ ":") (strSplitOnChar body '\n')

/-- `parseWHOIS domain body`: classify a WHOIS response body.  The date
parser (`parseWhoisDate` composed with the zero-time check) is abstracted
as `dateParse`; the expiry is the first of the four date fields whose
value parses. -/
def parseWHOIS {T : Type} (dateParse : String → Option T)
    (domain body : String) : Result T :=
  let lower := strToLower body
  if notRegisteredMarkers.any (fun m => containsSub lower m) then
    { domain := domain, status := StatusAvailable }
  else if registeredMarkers.any (fun m => containsSub lower m) then
    let r : Result T := { domain := domain, status := StatusRegistered }
    let r := { r with registrar := whoisField body "Registrar" }
    { r with
      expiry :=
        ["Registry Expiry Date", "Expiry Date", "Expiration Date",
         "paid-till"].findSome? (fun f => dateParse (whoisField body f)) }
  else
    { domain := domain, status := StatusUnknown }

/-- `WHOISClient.server`: two-tier TLD → WHOIS server resolution
(compound last-two-labels key first, then the last label). -/
def WHOISClient.server (domain : String) : Except String String :=
  let parts := strSplitOnChar domain '.'
  if parts.length < 2 then
    .error ("无效域名: " ++ domain)
  else
    let compound :=
      if parts.length ≥ 3 then
        whoisServers.lookup (stringsJoin "." (parts.drop (parts.length - 2)))
      else none
    match compound with
    | some srv => .ok srv
    | none =>
      match whoisServers.lookup (parts.getLastD "") with
      | some srv => .ok srv
      | none => .error ("未找到 TLD 的 WHOIS 服务器: " ++ parts.getLastD "")

/-- Oracle for the WHOIS TCP exchange with one server: the dial can fail,
the write can fail, the full read can fail, or a body is received. -/
inductive WhoisNet where
  | connectError (e : String)
  | writeError (e : String)
  | readError (e : String)
  | body (s : String)

/-- `WHOISClient.Query`: resolve the server, run the TCP exchange
(`net srv` is the oracle outcome for server `srv`), parse the body, and
turn an Unknown classification into an error. -/
def WHOISClient.Query {T : Type} (dateParse : String → Option T)
    (net : String → WhoisNet) (domain : String) : Except String (Result T) :=
  match WHOISClient.server domain with
  | .error e => .error e
  | .ok srv =>
    match net srv with
    | .connectError e => .error ("连接 WHOIS 服务器失败 " ++ srv ++ ": " ++ e)
    | .writeError e => .error ("发送 WHOIS 查询失败: " ++ e)
    | .readError e => .error ("读取 WHOIS 响应失败: " ++ e)
    | .body b =>
      let result := parseWHOIS dateParse domain b
      if result.status = StatusUnknown then
        .error ("无法解析 WHOIS 响应: " ++ domain)
      else .ok result

/-- Loosely-typed JSON value, as far as `extractVCardFN`'s dynamic type
assertions can observe it (`.([]interface{})` and `.(string)`); every
other JSON shape is collapsed into the constructors that fail both
assertions. -/
inductive JVal where
  | jstr (s : String)
  | jnum
  | jbool
  | jnull
  | jarr (elems : List JVal)
  | jobj

/-- The Go type assertion `v.([]interface{})`. -/
def JVal.asArr : JVal → Option (List JVal)
  | .jarr xs => some xs
  | _ => none

/-- The Go type assertion `v.(string)`. -/
def JVal.asStr : JVal → Option String
  | .jstr s => some s
  | _ => none

/-- Property scan of `extractVCardFN`: the first property tuple that is an
array of length ≥ 4 whose first element is the string "fn" and whose
fourth element is a string yields that fourth element. -/
def vcardScan : List JVal → String
  | [] => ""
  | p :: rest =>
    match p.asArr with
    | none => vcardScan rest
    | some prop =>
      if prop.length < 4 then vcardScan rest
      else
        match (prop.getD 0 .jnull).asStr with
        | none => vcardScan rest
        | some name =>
          if name ≠ "fn" then vcardScan rest
          else
            match (prop.getD 3 .jnull).asStr with
            | some val => val
            | none => vcardScan rest

/-- `extractVCardFN`: read the fn (full name) out of a
`["vcard", [[prop, params, type, value], ...]]` structure. -/
def extractVCardFN (vc : JVal) : String :=
  match vc.asArr with
  | none => ""
  | some arr =>
    if arr.length < 2 then ""
    else
      match (arr.getD 1 .jnull).asArr with
      | none => ""
      | some props => vcardScan props

/-- One `events` entry of an RDAP domain response. -/
structure RdapEvent where
  action : String
  date : String

/-- One `entities` entry of an RDAP domain response. -/
structure RdapEntity where
  roles : List String
  vcardArray : JVal

/-- The decoded RDAP domain response (the struct `d` in
`RDAPClient.queryServer`; `ldhName` and `status` are decoded but unused
by the source). -/
structure RdapDomainData where
  ldhName : String := ""
  status : List String := []
  events : List RdapEvent := []
  entities : List RdapEntity := []

/-- Oracle for one RDAP HTTP GET: either a transport error, or a response
with an HTTP status code and (for the 200 path) the combined outcome of
reading and JSON-decoding the body. -/
inductive HttpResult where
  | err (e : String)
  | resp (status : Nat) (body : Except String RdapDomainData)

/-- Oracle for the bootstrap fetch of `loadBootstrap`: HTTP error, body
read error, JSON decode error, or the decoded `services` array. -/
inductive BootstrapFetch where
  | httpError (e : String)
  | readError (e : String)
  | parseError (e : String)
  | services (svcs : List (List (List String)))

/-- Is the fetch outcome one of the three failure cases? -/
def BootstrapFetch.failed : BootstrapFetch → Bool
  | .services _ => false
  | _ => true

/-- The mutable state of `RDAPClient`: the bootstrap map and its
loaded flag (the Go map is modelled as an association list; assignment
replaces an existing key or appends). -/
structure RDAPClient where
  bootstrap : List (String × List String) := []
  loaded : Bool := false

/-- `NewRDAPClient`: empty bootstrap map, not loaded. -/
def NewRDAPClient : RDAPClient := {}

/-- Go map assignment `m[k] = v` on the association-list model. -/
def mapInsert (m : List (String × List String)) (k : String)
    (v : List String) : List (String × List String) :=
  if m.any (fun p => p.1 == k) then
    m.map (fun p => if p.1 == k then (k, v) else p)
  else m ++ [(k, v)]

/-- The population loop of `loadBootstrap`: entries of length < 2 are
skipped; each TLD is lowercased and mapped to the service's server
list. -/
def loadServices (m : List (String × List String))
    (svcs : List (List (List String))) : List (String × List String) :=
  svcs.foldl
    (fun m svc =>
      if svc.length < 2 then m
      else (svc.getD 0 []).foldl
        (fun m tld => mapInsert m (strToLower tld) (svc.getD 1 [])) m)
    m

/-- `loadBootstrap`: under the client mutex, return at once when already
loaded; otherwise run the fetch (oracle `fetch`), propagate any failure
with the state untouched, and on success populate the map and set the
loaded flag. -/
def RDAPClient.loadBootstrap (c : RDAPClient) (fetch : BootstrapFetch) :
    Except String Unit × RDAPClient :=
  if c.loaded then (.ok (), c)
  else
    match fetch with
    | .httpError e => (.error ("获取 RDAP bootstrap 失败: " ++ e), c)
    | .readError e => (.error e, c)
    | .parseError e => (.error ("解析 bootstrap JSON 失败: " ++ e), c)
    | .services svcs =>
      (.ok (), { c with bootstrap := loadServices c.bootstrap svcs,
                        loaded := true })

/-- `RDAPClient.servers`: load the bootstrap, then resolve the domain to
its endpoint list with the two-tier (compound, then last label) lookup. -/
def RDAPClient.servers (c : RDAPClient) (fetch : BootstrapFetch)
    (domain : String) : Except String (List String) × RDAPClient :=
  match c.loadBootstrap fetch with
  | (.error e, c') => (.error e, c')
  | (.ok _, c') =>
    let parts := strSplitOnChar domain '.'
    if parts.length < 2 then (.error ("无效域名: " ++ domain), c')
    else
      let compound :=
        if parts.length ≥ 3 then
          c'.bootstrap.lookup
            (stringsJoin "." (parts.drop (parts.length - 2)))
        else none
      match compound with
      | some srvs => (.ok srvs, c')
      | none =>
        match c'.bootstrap.lookup (parts.getLastD "") with
        | some srvs => (.ok srvs, c')
        | none =>
          (.error ("未找到 TLD 的 RDAP 服务器: " ++ parts.getLastD ""), c')

/-- Body of the `events` loop of `queryServer`: an "expiration" event
whose date parses overwrites the expiry; anything else leaves the result
unchanged. -/
def expiryStep {T : Type} (rfc3339 : String → Option T) (r : Result T)
    (ev : RdapEvent) : Result T :=
  if ev.action = "expiration" then
    match rfc3339 ev.date with
    | some t => { r with expiry := some t }
    | none => r
  else r

/-- Body of the `entities` loop of `queryServer`: an entity whose roles
include "registrar" overwrites the registrar with its vcard fn (the inner
`break` of the source only leaves the roles loop). -/
def registrarStep {T : Type} (r : Result T) (ent : RdapEntity) : Result T :=
  if ent.roles.contains "registrar" then
    { r with registrar := extractVCardFN ent.vcardArray }
  else r

/-- `RDAPClient.queryServer`: one HTTP GET against `url`.  404 is a
decisive Available; any status other than 200 is an error; on 200 the
decoded body yields a Registered result with expiry taken from the last
successfully parsed "expiration" event and registrar from the entities
whose roles include "registrar" (each match overwrites the field). -/
def RDAPClient.queryServer {T : Type} (rfc3339 : String → Option T)
    (net : String → HttpResult) (url domain : String) :
    Except String (Result T) :=
  match net url with
  | .err e => .error e
  | .resp status body =>
    if status = 404 then .ok { domain := domain, status := StatusAvailable }
    else if status ≠ 200 then .error ("HTTP " ++ toString status)
    else
      match body with
      | .error e => .error e
      | .ok d =>
        let r : Result T := { domain := domain, status := StatusRegistered }
        let r := d.events.foldl (expiryStep rfc3339) r
        let r := d.entities.foldl registrarStep r
        .ok r

/-- The URL built for one endpoint in `RDAPClient.Query`. -/
def rdapURL (srv domain : String) : String :=
  trimSuffix srv "/" ++ "/domain/" ++ domain

/-- The endpoint loop of `RDAPClient.Query`: return the result of the
first endpoint whose `queryServer` call succeeds. -/
def queryLoop {T : Type} (f : String → Except String (Result T)) :
    List String → Option (Result T)
  | [] => none
  | srv :: rest =>
    match f srv with
    | .ok r => some r
    | .error _ => queryLoop f rest

/-- `RDAPClient.Query`: resolve endpoints, then try them in list order;
if every endpoint fails, report that all RDAP servers failed. -/
def RDAPClient.Query {T : Type} (rfc3339 : String → Option T)
    (net : String → HttpResult) (c : RDAPClient) (fetch : BootstrapFetch)
    (domain : String) : Except String (Result T) × RDAPClient :=
  match c.servers fetch domain with
  | (.error e, c') => (.error e, c')
  | (.ok srvs, c') =>
    match queryLoop (fun srv =>
        RDAPClient.queryServer rfc3339 net (rdapURL srv domain) domain)
        srvs with
    | some r => (.ok r, c')
    | none => (.error ("所有 RDAP 服务器均失败: " ++ domain), c')

/-- The per-query environment of the orchestrator: the two abstract date
parsers and the three network oracles. -/
structure CheckEnv (T : Type) where
  rfc3339 : String → Option T
  whoisDate : String → Option T
  rdapNet : String → HttpResult
  whoisNet : String → WhoisNet
  fetch : BootstrapFetch

/-- `Checker.Check`: normalize the domain (trim then lowercase), try the
RDAP client, fall back to WHOIS, and on double failure return an Unknown
result carrying the WHOIS error text. -/
def Checker.Check {T : Type} (env : CheckEnv T) (c : RDAPClient)
    (domain : String) : Result T × RDAPClient :=
  let d := strToLower (strTrim domain)
  match RDAPClient.Query env.rfc3339 env.rdapNet c env.fetch d with
  | (.ok r, c') => ({ r with source := "rdap" }, c')
  | (.error _, c') =>
    match WHOISClient.Query env.whoisDate env.whoisNet d with
    | .ok r => ({ r with source := "whois" }, c')
    | .error e => ({ domain := d, status := StatusUnknown, err := e }, c')

/-- `queryAll`: the batch dispatcher.  One task per input index writes
`Check` of its domain into the pre-sized output slice at its own index;
the interleaving of task completions is abstracted as `order`, the
sequence in which tasks run against the shared `RDAPClient` state, and
`env i` is task `i`'s view of the network. -/
def dispatchStep {T : Type} (env : Nat → CheckEnv T) (domains : List String)
    (acc : List (Result T) × RDAPClient) (i : Nat) :
    List (Result T) × RDAPClient :=
  let step := Checker.Check (env i) acc.2 (domains.getD i "")
  (acc.1.set i step.1, step.2)

/-- `queryAll`: fold the dispatch steps over the task execution order,
starting from the pre-sized zero-valued output slice and a fresh
`RDAPClient` (the checker shared by all tasks). -/
def queryAll {T : Type} (env : Nat → CheckEnv T) (domains : List String)
    (order : List Nat) : List (Result T) :=
  (order.foldl (dispatchStep env domains)
    (List.replicate domains.length ({} : Result T), NewRDAPClient)).1

/-- Phase of one dispatcher task with respect to the admission gate
`sem := make(chan struct\x7b\x7d, concurrency)` in `queryAll`: `notYet`
before `sem <- ...`, `running` while holding a slot, `finished` after
`<-sem`. -/
inductive TaskPhase where
  | notYet
  | running
  | finished
deriving DecidableEq

/-- Does the task hold a semaphore slot? -/
def isRunning : TaskPhase → Bool
  | .running => true
  | _ => false

/-- Number of tasks currently between slot acquisition and release. -/
def countRunning (ts : List TaskPhase) : Nat :=
  ts.countP isRunning

/-- One scheduler step of `queryAll`'s admission gate: a task may acquire
a slot only while fewer than `N` slots are held (a send on a channel of
capacity `N` blocks when the channel is full), and a running task may
release its slot. -/
inductive SemStep (N : Nat) : List TaskPhase → List TaskPhase → Prop where
  | acquire {ts : List TaskPhase} (i : Nat)
      (h : ts[i]? = some TaskPhase.notYet)
      (hfree : countRunning ts < N) :
      SemStep N ts (ts.set i TaskPhase.running)
  | release {ts : List TaskPhase} (i : Nat)
      (h : ts[i]? = some TaskPhase.running) :
      SemStep N ts (ts.set i TaskPhase.finished)

/-- Modelled from the claim (the refinement target of C10): resolve the
WHOIS server by a direct lookup of the domain's last label in the table,
with the same malformed-domain and unknown-TLD failures. -/
def serverByLastLabel (domain : String) : Except String String :=
  let parts := strSplitOnChar domain '.'
  if parts.length < 2 then
    .error ("无效域名: " ++ domain)
  else
    match whoisServers.lookup (parts.getLastD "") with
    | some srv => .ok srv
    | none => .error ("未找到 TLD 的 WHOIS 服务器: " ++ parts.getLastD "")

/-- Refinement target for the corrected C4: the fn of the last entity
whose roles include "registrar" (empty when there is none). -/
def lastRegistrarFn (entities : List RdapEntity) : String :=
  match entities.reverse.find? (fun e => e.roles.contains "registrar") with
  | some e => extractVCardFN e.vcardArray
  | none => ""

lemma str_append_ne_empty (p q : String) (h : p ≠ "") : p ++ q ≠ "" := by
  intro hc
  apply h
  have hd : (p ++ q).data = ("" : String).data := congrArg String.data hc
  rw [String.data_append] at hd
  have hp : p.data = [] := (List.append_eq_nil.mp hd).1
  exact String.ext hp

lemma lookup_none_of_keys_ne {β : Type} (l : List (String × β)) (k : String)
    (h : ∀ p ∈ l, p.1 ≠ k) : l.lookup k = none := by
  induction l with
  | nil => rfl
  | cons p t ih =>
    have hk : (k == p.1) = false := by
      rw [beq_eq_false_iff_ne]
      exact fun he => h p (List.mem_cons_self ..) he.symm
    obtain ⟨k', v⟩ := p
    simp only [List.lookup, hk]
    exact ih fun q hq => h q (List.mem_cons_of_mem _ hq)

lemma whoisServers_keys_no_dot : ∀ p ∈ whoisServers, '.' ∉ p.1.data := by
  decide

lemma whoisServers_lookup_dotted (a b : String) :
    whoisServers.lookup (a ++ "." ++ b) = none := by
  apply lookup_none_of_keys_ne
  intro p hp he
  have hdot : '.' ∈ (a ++ "." ++ b).data := by
    rw [String.data_append, String.data_append]
    exact List.mem_append.mpr (.inl (List.mem_append.mpr (.inr (by simp))))
  rw [← he] at hdot
  exact whoisServers_keys_no_dot p hp hdot

/-- Claim C10: no key of the built-in WHOIS TLD table contains a dot, so
the compound last-two-labels branch of `WHOISClient.server` never fires
and the two-tier resolution equals a direct lookup of the last label. -/
theorem whois_server_eq_lastLabel (domain : String) :
    WHOISClient.server domain = serverByLastLabel domain := by
  unfold WHOISClient.server serverByLastLabel
  by_cases h2 : (strSplitOnChar domain '.').length < 2
  · simp only [h2, if_true]
  · simp only [h2, if_false]
    by_cases h3 : (strSplitOnChar domain '.').length ≥ 3
    · have hlen : ((strSplitOnChar domain '.').drop
          ((strSplitOnChar domain '.').length - 2)).length = 2 := by
        rw [List.length_drop]; omega
      obtain ⟨a, b, hab⟩ := List.length_eq_two.mp hlen
      have hj : stringsJoin "."
          ((strSplitOnChar domain '.').drop
            ((strSplitOnChar domain '.').length - 2)) = a ++ "." ++ b := by
        rw [hab]; rfl
      simp only [h3, if_true, hj, whoisServers_lookup_dotted]
    · simp only [h3, if_false]

example :
    (parseWHOIS (fun _ => (none : Option Unit)) "foo.com"
      "No Match for FOO.COM\nRegistrar: X").status = StatusAvailable := by
  decide

example :
    (parseWHOIS (fun _ => (none : Option Unit)) "foo.com"
      "Domain Status: ok\nRegistrar: Example Inc.\n").registrar
      = "Example Inc." := by
  decide

example : WHOISClient.server "a.b.com" = .ok "whois.verisign-grs.com" := by
  decide

lemma countP_set_eq {α : Type} (p : α → Bool) (l : List α) (i : Nat)
    (a b : α) (h : l[i]? = some b) :
    (l.set i a).countP p + (if p b then 1 else 0)
      = l.countP p + (if p a then 1 else 0) := by
  induction l generalizing i with
  | nil => simp at h
  | cons x xs ih =>
    cases i with
    | zero =>
      simp only [List.getElem?_cons_zero, Option.some.injEq] at h
      subst h
      simp only [List.set_cons_zero, List.countP_cons]
      omega
    | succ n =>
      simp only [List.getElem?_cons_succ] at h
      simp only [List.set_cons_succ, List.countP_cons]
      have := ih n h
      omega

lemma countRunning_replicate (n : Nat) :
    countRunning (List.replicate n TaskPhase.notYet) = 0 := by
  induction n with
  | zero => rfl
  | succ m ih =>
    simp only [List.replicate, countRunning, List.countP_cons] at *
    simp [ih, isRunning]

lemma semStep_preserves (N : Nat) {ts ts' : List TaskPhase}
    (hstep : SemStep N ts ts') (h : countRunning ts ≤ N) :
    countRunning ts' ≤ N := by
  cases hstep with
  | acquire i hi hfree =>
    have hc := countP_set_eq isRunning ts i TaskPhase.running
      TaskPhase.notYet hi
    simp [isRunning] at hc
    unfold countRunning at *
    omega
  | release i hi =>
    have hc := countP_set_eq isRunning ts i TaskPhase.finished
      TaskPhase.running hi
    simp [isRunning] at hc
    unfold countRunning at *
    omega

/-- Claim C9: in every execution of the batch dispatcher's admission
gate (the capacity-`N` channel `sem` of `queryAll`), every state
reachable from the all-not-yet-started state has at most `N` tasks
between slot acquisition and slot release. -/
theorem queryAll_concurrency_bound (N n : Nat) (ts : List TaskPhase)
    (h : Relation.ReflTransGen (SemStep N)
      (List.replicate n TaskPhase.notYet) ts) :
    countRunning ts ≤ N := by
  induction h with
  | refl => rw [countRunning_replicate]; exact Nat.zero_le N
  | tail _ hstep ih => exact semStep_preserves N hstep ih

/-- Witness for C9: with `N = 1` and two tasks, the state after one
acquisition is reachable and holds at most one slot. -/
theorem queryAll_concurrency_bound_witness :
    countRunning ((List.replicate 2 TaskPhase.notYet).set 0
      TaskPhase.running) ≤ 1 :=
  queryAll_concurrency_bound 1 2 _
    (Relation.ReflTransGen.single (SemStep.acquire 0 rfl (by decide)))

/-- Claim C7: a WHOIS body containing any not-registered marker (matched
on the lowercased body, scanned before the registered markers) classifies
as Available with registrar and expiry unset, whatever else the body
contains. -/
theorem parseWHOIS_notRegistered {T : Type} (dateParse : String → Option T)
    (domain body : String)
    (h : notRegisteredMarkers.any
      (fun m => containsSub (strToLower body) m) = true) :
    parseWHOIS dateParse domain body =
      { domain := domain, status := StatusAvailable } := by
  unfold parseWHOIS
  simp only [h, if_true]

/-- Witness for C7: the spec's example body, in mixed case and with a
registered-marker field label also present. -/
theorem parseWHOIS_notRegistered_witness :
    (notRegisteredMarkers.any (fun m => containsSub
      (strToLower "No Match for DOMAIN.COM\nRegistrar: Example Inc.") m)
      = true)
    ∧ parseWHOIS (fun _ => (none : Option Unit)) "domain.com"
        "No Match for DOMAIN.COM\nRegistrar: Example Inc." =
      { domain := "domain.com", status := StatusAvailable } :=
  ⟨by decide, parseWHOIS_notRegistered _ _ _ (by decide)⟩

/-- Claim C8: a WHOIS body with no not-registered marker and at least one
registered marker classifies as Registered, with the registrar taken by
the case-insensitive first-match line scan `whoisField body "Registrar"`. -/
theorem parseWHOIS_registered {T : Type} (dateParse : String → Option T)
    (domain body : String)
    (hn : notRegisteredMarkers.any
      (fun m => containsSub (strToLower body) m) = false)
    (hr : registeredMarkers.any
      (fun m => containsSub (strToLower body) m) = true) :
    (parseWHOIS dateParse domain body).status = StatusRegistered ∧
    (parseWHOIS dateParse domain body).registrar
      = whoisField body "Registrar" := by
  unfold parseWHOIS
  simp [hn, hr]

/-- Witness for C8: the spec's example line yields registrar
"Example Inc.". -/
theorem parseWHOIS_registered_witness :
    (notRegisteredMarkers.any (fun m => containsSub
      (strToLower "Domain Status: ok\nRegistrar: Example Inc.\n") m)
      = false)
    ∧ (registeredMarkers.any (fun m => containsSub
        (strToLower "Domain Status: ok\nRegistrar: Example Inc.\n") m)
        = true)
    ∧ ((parseWHOIS (fun _ => (none : Option Unit)) "example.com"
          "Domain Status: ok\nRegistrar: Example Inc.\n").status
            = StatusRegistered ∧
       (parseWHOIS (fun _ => (none : Option Unit)) "example.com"
          "Domain Status: ok\nRegistrar: Example Inc.\n").registrar
            = whoisField "Domain Status: ok\nRegistrar: Example Inc.\n"
                "Registrar")
    ∧ whoisField "Domain Status: ok\nRegistrar: Example Inc.\n" "Registrar"
        = "Example Inc." :=
  ⟨by decide, by decide,
   parseWHOIS_registered _ _ _ (by decide) (by decide), by decide⟩

lemma parseWHOIS_fields {T : Type} (dp : String → Option T)
    (d b : String) :
    (parseWHOIS dp d b).domain = d ∧ (parseWHOIS dp d b).err = "" ∧
    (parseWHOIS dp d b).source = "" ∧
    ((parseWHOIS dp d b).status = StatusAvailable ∨
     (parseWHOIS dp d b).status = StatusRegistered ∨
     (parseWHOIS dp d b).status = StatusUnknown) := by
  simp only [parseWHOIS]
  split
  · exact ⟨rfl, rfl, rfl, .inl rfl⟩
  · split
    · exact ⟨rfl, rfl, rfl, .inr (.inl rfl)⟩
    · exact ⟨rfl, rfl, rfl, .inr (.inr rfl)⟩

lemma whois_server_error_ne (d e : String)
    (h : WHOISClient.server d = .error e) : e ≠ "" := by
  simp only [WHOISClient.server] at h
  split at h
  · injection h with he
    subst he
    exact str_append_ne_empty _ _ (by decide)
  · split at h
    · exact absurd h (by simp)
    · split at h
      · exact absurd h (by simp)
      · injection h with he
        subst he
        exact str_append_ne_empty _ _ (by decide)

lemma whoisQuery_error_ne {T : Type} (dp : String → Option T)
    (net : String → WhoisNet) (d e : String)
    (h : WHOISClient.Query dp net d = .error e) : e ≠ "" := by
  simp only [WHOISClient.Query] at h
  split at h
  · rename_i e' heq
    injection h with he
    subst he
    exact whois_server_error_ne d e' heq
  · rename_i srv heq
    split at h
    · injection h with he
      subst he
      exact str_append_ne_empty _ _ (str_append_ne_empty _ _
        (str_append_ne_empty _ _ (by decide)))
    · injection h with he
      subst he
      exact str_append_ne_empty _ _ (by decide)
    · injection h with he
      subst he
      exact str_append_ne_empty _ _ (by decide)
    · split at h
      · injection h with he
        subst he
        exact str_append_ne_empty _ _ (by decide)
      · exact absurd h (by simp)

lemma whoisQuery_ok {T : Type} (dp : String → Option T)
    (net : String → WhoisNet) (d : String) (r : Result T)
    (h : WHOISClient.Query dp net d = .ok r) :
    r.domain = d ∧ r.err = "" ∧ r.source = "" ∧
    (r.status = StatusAvailable ∨ r.status = StatusRegistered) := by
  simp only [WHOISClient.Query] at h
  split at h
  · exact absurd h (by simp)
  · split at h
    · exact absurd h (by simp)
    · exact absurd h (by simp)
    · exact absurd h (by simp)
    · rename_i b hb
      split at h
      · exact absurd h (by simp)
      · rename_i hu
        injection h with he
        subst he
        obtain ⟨h1, h2, h3, h4⟩ := parseWHOIS_fields dp d b
        refine ⟨h1, h2, h3, ?_⟩
        rcases h4 with hx | hx | hx
        · exact .inl hx
        · exact .inr hx
        · exact absurd hx hu

lemma foldl_expiryStep_fields {T : Type} (rfc : String → Option T)
    (events : List RdapEvent) (r : Result T) :
    (events.foldl (expiryStep rfc) r).domain = r.domain ∧
    (events.foldl (expiryStep rfc) r).status = r.status ∧
    (events.foldl (expiryStep rfc) r).registrar = r.registrar ∧
    (events.foldl (expiryStep rfc) r).source = r.source ∧
    (events.foldl (expiryStep rfc) r).err = r.err := by
  induction events generalizing r with
  | nil => exact ⟨rfl, rfl, rfl, rfl, rfl⟩
  | cons ev evs ih =>
    simp only [List.foldl_cons]
    have hstep : (expiryStep rfc r ev).domain = r.domain ∧
        (expiryStep rfc r ev).status = r.status ∧
        (expiryStep rfc r ev).registrar = r.registrar ∧
        (expiryStep rfc r ev).source = r.source ∧
        (expiryStep rfc r ev).err = r.err := by
      unfold expiryStep
      split
      · cases rfc ev.date with
        | some t => exact ⟨rfl, rfl, rfl, rfl, rfl⟩
        | none => exact ⟨rfl, rfl, rfl, rfl, rfl⟩
      · exact ⟨rfl, rfl, rfl, rfl, rfl⟩
    obtain ⟨a1, a2, a3, a4, a5⟩ := ih (expiryStep rfc r ev)
    obtain ⟨b1, b2, b3, b4, b5⟩ := hstep
    exact ⟨a1.trans b1, a2.trans b2, a3.trans b3, a4.trans b4, a5.trans b5⟩

lemma foldl_registrarStep_fields {T : Type} (entities : List RdapEntity)
    (r : Result T) :
    (entities.foldl registrarStep r).domain = r.domain ∧
    (entities.foldl registrarStep r).status = r.status ∧
    (entities.foldl registrarStep r).expiry = r.expiry ∧
    (entities.foldl registrarStep r).source = r.source ∧
    (entities.foldl registrarStep r).err = r.err := by
  induction entities generalizing r with
  | nil => exact ⟨rfl, rfl, rfl, rfl, rfl⟩
  | cons ent ents ih =>
    simp only [List.foldl_cons]
    have hstep : (registrarStep r ent).domain = r.domain ∧
        (registrarStep r ent).status = r.status ∧
        (registrarStep r ent).expiry = r.expiry ∧
        (registrarStep r ent).source = r.source ∧
        (registrarStep r ent).err = r.err := by
      unfold registrarStep
      split
      · exact ⟨rfl, rfl, rfl, rfl, rfl⟩
      · exact ⟨rfl, rfl, rfl, rfl, rfl⟩
    obtain ⟨a1, a2, a3, a4, a5⟩ := ih (registrarStep r ent)
    obtain ⟨b1, b2, b3, b4, b5⟩ := hstep
    exact ⟨a1.trans b1, a2.trans b2, a3.trans b3, a4.trans b4, a5.trans b5⟩

lemma foldl_registrarStep_registrar {T : Type} (entities : List RdapEntity)
    (r : Result T) :
    (entities.foldl registrarStep r).registrar =
      match entities.reverse.find?
          (fun e => e.roles.contains "registrar") with
      | some e => extractVCardFN e.vcardArray
      | none => r.registrar := by
  induction entities generalizing r with
  | nil => rfl
  | cons ent ents ih =>
    simp only [List.foldl_cons, List.reverse_cons, List.find?_append]
    rw [ih (registrarStep r ent)]
    cases hf : ents.reverse.find? (fun e => e.roles.contains "registrar") with
    | some e => rfl
    | none =>
      rcases Bool.eq_false_or_eq_true (ent.roles.contains "registrar")
        with hp | hp
      · simp at hp
        simp [registrarStep, hp]
      · simp at hp
        simp [registrarStep, hp]

lemma queryServer_ok_fields {T : Type} (rfc : String → Option T)
    (net : String → HttpResult) (url d : String) (r : Result T)
    (h : RDAPClient.queryServer rfc net url d = .ok r) :
    r.domain = d ∧ r.err = "" ∧ r.source = "" ∧
    (r.status = StatusAvailable ∨ r.status = StatusRegistered) := by
  simp only [RDAPClient.queryServer] at h
  split at h
  · exact absurd h (by simp)
  · split at h
    · injection h with he
      subst he
      exact ⟨rfl, rfl, rfl, .inl rfl⟩
    · split at h
      · exact absurd h (by simp)
      · split at h
        · exact absurd h (by simp)
        · rename_i dd hdd
          injection h with he
          subst he
          obtain ⟨e1, e2, e3, e4, e5⟩ := foldl_expiryStep_fields rfc
            dd.events { domain := d, status := StatusRegistered }
          obtain ⟨f1, f2, f3, f4, f5⟩ := foldl_registrarStep_fields
            dd.entities (dd.events.foldl (expiryStep rfc)
              { domain := d, status := StatusRegistered })
          refine ⟨f1.trans e1, f5.trans e5, f4.trans e4, .inr ?_⟩
          exact f2.trans e2

lemma queryLoop_eq_some {T : Type} (f : String → Except String (Result T))
    (l : List String) (r : Result T) (h : queryLoop f l = some r) :
    ∃ s ∈ l, f s = .ok r := by
  induction l with
  | nil => exact absurd h (by simp [queryLoop])
  | cons srv rest ih =>
    unfold queryLoop at h
    cases hf : f srv with
    | ok r' =>
      rw [hf] at h
      injection h with he
      subst he
      exact ⟨srv, List.mem_cons_self .., hf⟩
    | error e =>
      rw [hf] at h
      obtain ⟨s, hs, hfs⟩ := ih h
      exact ⟨s, List.mem_cons_of_mem _ hs, hfs⟩

lemma queryLoop_eq_none_iff {T : Type} (f : String → Except String (Result T))
    (l : List String) :
    queryLoop f l = none ↔ ∀ s ∈ l, ∃ e, f s = .error e := by
  induction l with
  | nil => simp [queryLoop]
  | cons srv rest ih =>
    unfold queryLoop
    cases hf : f srv with
    | ok r' =>
      simp only [reduceCtorEq, false_iff]
      intro hall
      obtain ⟨e, he⟩ := hall srv (List.mem_cons_self ..)
      rw [hf] at he
      exact absurd he (by simp)
    | error e =>
      rw [ih]
      constructor
      · intro hall s hs
        rcases List.mem_cons.mp hs with rfl | hs'
        · exact ⟨e, hf⟩
        · exact hall s hs'
      · intro hall s hs
        exact hall s (List.mem_cons_of_mem _ hs)

lemma queryLoop_first_ok {T : Type} (f : String → Except String (Result T))
    (pre post : List String) (srv : String) (r : Result T)
    (hpre : ∀ s ∈ pre, ∃ e, f s = .error e) (hsrv : f srv = .ok r) :
    queryLoop f (pre ++ srv :: post) = some r := by
  induction pre with
  | nil => simp [queryLoop, hsrv]
  | cons x xs ih =>
    obtain ⟨e, he⟩ := hpre x (List.mem_cons_self ..)
    simp only [List.cons_append]
    unfold queryLoop
    rw [he]
    exact ih fun s hs => hpre s (List.mem_cons_of_mem _ hs)

lemma rdapQuery_ok_fields {T : Type} (rfc : String → Option T)
    (net : String → HttpResult) (c : RDAPClient) (fetch : BootstrapFetch)
    (d : String) (r : Result T) (c' : RDAPClient)
    (h : RDAPClient.Query rfc net c fetch d = (.ok r, c')) :
    r.domain = d ∧ r.err = "" ∧ r.source = "" ∧
    (r.status = StatusAvailable ∨ r.status = StatusRegistered) := by
  unfold RDAPClient.Query at h
  split at h
  · exact absurd (congrArg Prod.fst h) (by simp)
  · split at h
    · rename_i srvs c2 hsrvs r2 hl
      have hr : r2 = r := by
        have := congrArg Prod.fst h
        simpa using this
      subst hr
      obtain ⟨s, _, hok⟩ := queryLoop_eq_some _ _ _ hl
      exact queryServer_ok_fields rfc net (rdapURL s d) d r2 hok
    · exact absurd (congrArg Prod.fst h) (by simp)

/-- The Result invariant asserted by the spec: the error detail is set
exactly on Unknown, the source is unset exactly on Unknown, and a decided
status carries a protocol tag and no error. -/
def resultInv {T : Type} (r : Result T) : Prop :=
  (r.err ≠ "" ↔ r.status = StatusUnknown) ∧
  (r.source = "" ↔ r.status = StatusUnknown) ∧
  (r.status = StatusRegistered ∨ r.status = StatusAvailable →
    (r.source = "rdap" ∨ r.source = "whois") ∧ r.err = "")

lemma resultInv_of_ok {T : Type} (r : Result T) (src : String)
    (hsrc : src = "rdap" ∨ src = "whois") (he : r.err = "")
    (hst : r.status = StatusAvailable ∨ r.status = StatusRegistered) :
    resultInv { r with source := src } := by
  unfold resultInv
  have h1 : ({ r with source := src } : Result T).err = r.err := rfl
  have h2 : ({ r with source := src } : Result T).source = src := rfl
  have h3 : ({ r with source := src } : Result T).status = r.status := rfl
  rw [h1, h2, h3]
  refine ⟨⟨fun hne => absurd he hne, fun hu => ?_⟩,
    ⟨fun hs0 => ?_, fun hu => ?_⟩, fun _ => ⟨hsrc, he⟩⟩
  · rcases hst with h | h <;> rw [h] at hu <;> exact absurd hu (by decide)
  · rcases hsrc with h | h <;> rw [h] at hs0 <;> exact absurd hs0 (by decide)
  · rcases hst with h | h <;> rw [h] at hu <;> exact absurd hu (by decide)

lemma resultInv_unknown {T : Type} (d e : String) (hne : e ≠ "") :
    resultInv ({ domain := d, status := StatusUnknown, err := e } :
      Result T) := by
  unfold resultInv
  refine ⟨⟨fun _ => rfl, fun _ => hne⟩, ⟨fun _ => rfl, fun _ => rfl⟩, ?_⟩
  intro hcon
  have h3 : ({ domain := d, status := StatusUnknown, err := e } :
      Result T).status = StatusUnknown := rfl
  rw [h3] at hcon
  rcases hcon with h | h <;> exact absurd h (by decide)

/-- Claim C2: every Result produced by the orchestrator `Checker.Check`
satisfies the spec invariant: `err` set iff status Unknown, `source`
unset iff status Unknown, and a Registered/Available result carries
source "rdap" or "whois" with empty `err`. -/
theorem check_result_invariants {T : Type} (env : CheckEnv T)
    (c : RDAPClient) (domain : String) :
    resultInv (Checker.Check env c domain).1 := by
  simp only [Checker.Check]
  split
  · rename_i r c' hq
    obtain ⟨_, he, _, hst⟩ := rdapQuery_ok_fields _ _ _ _ _ _ _ hq
    exact resultInv_of_ok r "rdap" (.inl rfl) he hst
  · rename_i e c' hq
    split
    · rename_i r hw
      obtain ⟨_, he, _, hst⟩ := whoisQuery_ok _ _ _ _ hw
      exact resultInv_of_ok r "whois" (.inr rfl) he hst
    · rename_i e2 hw
      exact resultInv_unknown _ _ (whoisQuery_error_ne _ _ _ _ hw)

/-- Claim C3: an RDAP endpoint answering HTTP 404 yields a decisive
Available result with registrar and expiry unset, and the orchestrator
stamps any successful RDAP result with source "rdap". -/
theorem rdap404_available {T : Type} (env : CheckEnv T) :
    (∀ url domain body, env.rdapNet url = .resp 404 body →
      RDAPClient.queryServer env.rfc3339 env.rdapNet url domain =
        .ok { domain := domain, status := StatusAvailable }) ∧
    (∀ c domain r c',
      RDAPClient.Query env.rfc3339 env.rdapNet c env.fetch
        (strToLower (strTrim domain)) = (.ok r, c') →
      (Checker.Check env c domain).1 = { r with source := "rdap" }) := by
  constructor
  · intro url domain body h
    simp only [RDAPClient.queryServer, h]
    rfl
  · intro c domain r c' hq
    simp only [Checker.Check, hq]

/-- Environment used by the C3 witness: the bootstrap resolves "com" and
every endpoint answers 404. -/
def c3env : CheckEnv Unit where
  rfc3339 := fun _ => none
  whoisDate := fun _ => none
  rdapNet := fun _ => .resp 404 (.error "")
  whoisNet := fun _ => .body ""
  fetch := .services [[["com"], ["https://rdap.example"]]]

/-- Witness for C3: a concrete 404 run, end to end through `Check`. -/
theorem rdap404_available_witness :
    RDAPClient.queryServer c3env.rfc3339 c3env.rdapNet "u" "x.com" =
      .ok { domain := "x.com", status := StatusAvailable } ∧
    (Checker.Check c3env NewRDAPClient " X.com ").1 =
      { domain := "x.com", status := StatusAvailable, source := "rdap" } := by
  constructor
  · exact (rdap404_available c3env).1 "u" "x.com" (.error "") rfl
  · have h := (rdap404_available c3env).2 NewRDAPClient " X.com "
      { domain := "x.com", status := StatusAvailable }
      { bootstrap := [("com", ["https://rdap.example"])], loaded := true }
      rfl
    exact h

/-- Claim C5: the RDAP client iterates endpoints in bootstrap order:
transport errors, non-200/404 statuses and unparsable 200 bodies are
soft per-endpoint failures, the first decisive endpoint's result is
returned, and the all-servers-failed error occurs exactly when every
endpoint fails. -/
theorem rdap_endpoint_iteration {T : Type} (env : CheckEnv T)
    (c : RDAPClient) (domain : String) (srvs : List String)
    (c' : RDAPClient)
    (hs : RDAPClient.servers c env.fetch domain = (.ok srvs, c')) :
    (∀ url e, env.rdapNet url = .err e →
      RDAPClient.queryServer env.rfc3339 env.rdapNet url domain =
        .error e) ∧
    (∀ url s body, env.rdapNet url = .resp s body → ¬s = 404 → ¬s = 200 →
      RDAPClient.queryServer env.rfc3339 env.rdapNet url domain =
        .error ("HTTP " ++ toString s)) ∧
    (∀ url e, env.rdapNet url = .resp 200 (.error e) →
      RDAPClient.queryServer env.rfc3339 env.rdapNet url domain =
        .error e) ∧
    (∀ pre srv post r, srvs = pre ++ srv :: post →
      (∀ s ∈ pre, ∃ e, RDAPClient.queryServer env.rfc3339 env.rdapNet
          (rdapURL s domain) domain = .error e) →
      RDAPClient.queryServer env.rfc3339 env.rdapNet (rdapURL srv domain)
        domain = .ok r →
      RDAPClient.Query env.rfc3339 env.rdapNet c env.fetch domain =
        (.ok r, c')) ∧
    (RDAPClient.Query env.rfc3339 env.rdapNet c env.fetch domain =
        (.error ("所有 RDAP 服务器均失败: " ++ domain), c') ↔
      ∀ s ∈ srvs, ∃ e, RDAPClient.queryServer env.rfc3339 env.rdapNet
        (rdapURL s domain) domain = .error e) := by
  refine ⟨?_, ?_, ?_, ?_, ?_⟩
  · intro url e h
    simp only [RDAPClient.queryServer, h]
  · intro url s body h h404 h200
    simp only [RDAPClient.queryServer, h]
    rw [if_neg h404, if_pos h200]
  · intro url e h
    simp only [RDAPClient.queryServer, h]
    rw [if_neg (by decide), if_neg (by decide)]
  · intro pre srv post r hsplit hpre hok
    subst hsplit
    simp only [RDAPClient.Query, hs]
    rw [queryLoop_first_ok _ pre post srv r hpre hok]
  · constructor
    · intro hq s hsin
      cases hl : queryLoop (fun srv =>
          RDAPClient.queryServer env.rfc3339 env.rdapNet
            (rdapURL srv domain) domain) srvs with
      | some r =>
        simp only [RDAPClient.Query, hs, hl] at hq
        exact absurd (congrArg Prod.fst hq) (by simp)
      | none => exact (queryLoop_eq_none_iff _ _).mp hl s hsin
    · intro hall
      have hl : queryLoop (fun srv =>
          RDAPClient.queryServer env.rfc3339 env.rdapNet
            (rdapURL srv domain) domain) srvs = none :=
        (queryLoop_eq_none_iff _ _).mpr hall
      simp only [RDAPClient.Query, hs, hl]

/-- Environment used by the C5 witness: two endpoints for "com"; the
first answers HTTP 500, the second 404. -/
def c5env : CheckEnv Unit where
  rfc3339 := fun _ => none
  whoisDate := fun _ => none
  rdapNet := fun url =>
    if url = "https://a/domain/x.com" then .resp 500 (.error "boom")
    else .resp 404 (.error "")
  whoisNet := fun _ => .body ""
  fetch := .services [[["com"], ["https://a/", "https://b"]]]

/-- The client state after the C5 witness bootstrap load. -/
def c5state : RDAPClient where
  bootstrap := [("com", ["https://a/", "https://b"])]
  loaded := true

/-- Witness for C5: the first endpoint soft-fails with HTTP 500 and the
query returns the second endpoint's 404 result. -/
theorem rdap_endpoint_iteration_witness :
    RDAPClient.Query c5env.rfc3339 c5env.rdapNet NewRDAPClient c5env.fetch
      "x.com" =
      (.ok { domain := "x.com", status := StatusAvailable }, c5state) := by
  have h := rdap_endpoint_iteration c5env NewRDAPClient "x.com"
    ["https://a/", "https://b"] c5state rfl
  refine h.2.2.2.1 ["https://a/"] "https://b" [] _ rfl ?_ rfl
  intro s hsin
  have hone : s = "https://a/" := by simpa using hsin
  subst hone
  exact ⟨"HTTP 500", rfl⟩

/-- Claim C6: a failed bootstrap fetch propagates its error and leaves
the client state (map and loaded flag) untouched, so the next call
retries; a call on a loaded client is a no-op success for any fetch
outcome; a successful fetch populates and sets the loaded flag. -/
theorem loadBootstrap_retry_once (c : RDAPClient)
    (fetch : BootstrapFetch) :
    (c.loaded = false → fetch.failed = true →
      ∃ e, c.loadBootstrap fetch = (.error e, c)) ∧
    (c.loaded = true → c.loadBootstrap fetch = (.ok (), c)) ∧
    (∀ svcs, (c.loadBootstrap (.services svcs)).1 = .ok () ∧
      (c.loadBootstrap (.services svcs)).2.loaded = true) := by
  refine ⟨?_, ?_, ?_⟩
  · intro hl hf
    cases fetch with
    | httpError e =>
      exact ⟨"获取 RDAP bootstrap 失败: " ++ e,
        by simp [RDAPClient.loadBootstrap, hl]⟩
    | readError e =>
      exact ⟨e, by simp [RDAPClient.loadBootstrap, hl]⟩
    | parseError e =>
      exact ⟨"解析 bootstrap JSON 失败: " ++ e,
        by simp [RDAPClient.loadBootstrap, hl]⟩
    | services svcs => exact absurd hf (by simp [BootstrapFetch.failed])
  · intro hl
    simp [RDAPClient.loadBootstrap, hl]
  · intro svcs
    by_cases hl : c.loaded
    · constructor <;> simp [RDAPClient.loadBootstrap, hl]
    · constructor <;> simp [RDAPClient.loadBootstrap, hl]

/-- Witness for C6: a fresh client and a failing fetch. -/
theorem loadBootstrap_retry_once_witness :
    NewRDAPClient.loaded = false ∧
    (BootstrapFetch.httpError "x").failed = true ∧
    ∃ e, NewRDAPClient.loadBootstrap (.httpError "x") =
      (.error e, NewRDAPClient) :=
  ⟨rfl, rfl,
   (loadBootstrap_retry_once NewRDAPClient (.httpError "x")).1 rfl rfl⟩

lemma check_fst_domain {T : Type} (env : CheckEnv T) (c : RDAPClient)
    (s : String) :
    (Checker.Check env c s).1.domain = strToLower (strTrim s) := by
  simp only [Checker.Check]
  split
  · rename_i r c' hq
    exact (rdapQuery_ok_fields _ _ _ _ _ _ _ hq).1
  · rename_i e c' hq
    split
    · rename_i r hw
      exact (whoisQuery_ok _ _ _ _ hw).1
    · rfl

lemma dispatch_fold_length {T : Type} (env : Nat → CheckEnv T)
    (domains : List String) (order : List Nat)
    (acc : List (Result T) × RDAPClient) :
    (order.foldl (dispatchStep env domains) acc).1.length
      = acc.1.length := by
  induction order generalizing acc with
  | nil => rfl
  | cons i o ih =>
    simp only [List.foldl_cons]
    rw [ih]
    simp [dispatchStep]

lemma dispatch_fold_untouched {T : Type} (env : Nat → CheckEnv T)
    (domains : List String) (order : List Nat)
    (acc : List (Result T) × RDAPClient) (j : Nat) (hj : j ∉ order) :
    (order.foldl (dispatchStep env domains) acc).1[j]? = acc.1[j]? := by
  induction order generalizing acc with
  | nil => rfl
  | cons i o ih =>
    have hji : j ≠ i := fun h => hj (h ▸ List.mem_cons_self ..)
    have hjo : j ∉ o := fun h => hj (List.mem_cons_of_mem _ h)
    simp only [List.foldl_cons]
    rw [ih _ hjo]
    simp [dispatchStep, List.getElem?_set_ne (Ne.symm hji)]

lemma dispatch_fold_written {T : Type} (env : Nat → CheckEnv T)
    (domains : List String) (order : List Nat)
    (acc : List (Result T) × RDAPClient) (j : Nat)
    (hlen : acc.1.length = domains.length)
    (hj : j ∈ order) (hjn : j < domains.length) :
    ∃ r, (order.foldl (dispatchStep env domains) acc).1[j]? = some r ∧
      r.domain = strToLower (strTrim (domains.getD j "")) := by
  induction order generalizing acc with
  | nil => exact absurd hj (List.not_mem_nil j)
  | cons i o ih =>
    simp only [List.foldl_cons]
    by_cases hjo : j ∈ o
    · exact ih (dispatchStep env domains acc i)
        (by simp [dispatchStep, hlen]) hjo
    · have hji : j = i := by
        rcases List.mem_cons.mp hj with h | h
        · exact h
        · exact absurd h hjo
      subst hji
      rw [dispatch_fold_untouched _ _ _ _ _ hjo]
      refine ⟨(Checker.Check (env j) acc.2 (domains.getD j "")).1, ?_, ?_⟩
      · simp only [dispatchStep]
        exact List.getElem?_set_self (by rw [hlen]; exact hjn)
      · exact check_fst_domain _ _ _

/-- Claim C1: `queryAll` is length-preserving and order-preserving: for
every execution order of the tasks that runs each task at least once and
any per-task view of the network, slot `i` of the output holds a Result
whose domain is the trimmed, lowercased form of input `i`. -/
theorem queryAll_order_preserving {T : Type} (env : Nat → CheckEnv T)
    (domains : List String) (order : List Nat)
    (hcover : ∀ i, i < domains.length → i ∈ order) :
    (queryAll env domains order).length = domains.length ∧
    ∀ i, i < domains.length →
      ∃ r, (queryAll env domains order)[i]? = some r ∧
        r.domain = strToLower (strTrim (domains.getD i "")) := by
  constructor
  · unfold queryAll
    rw [dispatch_fold_length]
    exact List.length_replicate ..
  · intro i hi
    unfold queryAll
    exact dispatch_fold_written env domains order _ i (by simp)
      (hcover i hi) hi

/-- Environment used by the C1 witness: RDAP is down, WHOIS answers a
not-registered body. -/
def c1env : CheckEnv Unit where
  rfc3339 := fun _ => none
  whoisDate := fun _ => none
  rdapNet := fun _ => .err "down"
  whoisNet := fun _ => .body "No match for FOO.COM"
  fetch := .httpError "down"

/-- Witness for C1: one mixed-case padded domain, run by task 0. -/
theorem queryAll_order_preserving_witness :
    (∀ i, i < (["  Foo.COM "] : List String).length →
      i ∈ ([0] : List Nat)) ∧
    ((queryAll (fun _ => c1env) ["  Foo.COM "] [0]).length = 1 ∧
     ∀ i, i < (["  Foo.COM "] : List String).length →
       ∃ r, (queryAll (fun _ => c1env) ["  Foo.COM "] [0])[i]? = some r ∧
         r.domain = strToLower (strTrim
           ((["  Foo.COM "] : List String).getD i ""))) :=
  ⟨by decide, queryAll_order_preserving _ _ _ (by decide)⟩

/-- First registrar-role entity of the C4 counterexample. -/
def entA : RdapEntity where
  roles := ["registrar"]
  vcardArray := .jarr [.jstr "vcard",
    .jarr [.jarr [.jstr "fn", .jobj, .jstr "text", .jstr "Registrar A"]]]

/-- Second registrar-role entity of the C4 counterexample. -/
def entB : RdapEntity where
  roles := ["registrar"]
  vcardArray := .jarr [.jstr "vcard",
    .jarr [.jarr [.jstr "fn", .jobj, .jstr "text", .jstr "Registrar B"]]]

/-- Network oracle of the C4 counterexample: HTTP 200 with two
registrar-role entities. -/
def c4net : String → HttpResult := fun _ =>
  .resp 200 (.ok { entities := [entA, entB] })

/-- Counterexample to C4 as stated: with two registrar-role entities the
registrar is the fn of the second (last) entity, not of the first. -/
theorem rdap_registrar_first_entity_counterexample :
    RDAPClient.queryServer (fun _ => (none : Option Unit)) c4net "u"
        "x.com" =
      .ok { domain := "x.com", status := StatusRegistered,
            registrar := "Registrar B" } ∧
    extractVCardFN entA.vcardArray = "Registrar A" ∧
    ("Registrar A" : String) ≠ "Registrar B" :=
  ⟨rfl, rfl, by decide⟩

/-- Claim C4 as amended: on an HTTP 200 response the registrar is the
vcard fn (fourth tuple element of the "fn" property) of the last entity
whose roles include "registrar" — each matching entity overwrites the
field, because the break in the source only leaves the inner roles
loop. -/
theorem rdap_registrar_last_entity {T : Type} (rfc : String → Option T)
    (net : String → HttpResult) (url domain : String)
    (d : RdapDomainData) (h : net url = .resp 200 (.ok d)) :
    ∃ r, RDAPClient.queryServer rfc net url domain = .ok r ∧
      r.status = StatusRegistered ∧ r.domain = domain ∧
      r.registrar = lastRegistrarFn d.entities := by
  refine ⟨d.entities.foldl registrarStep (d.events.foldl (expiryStep rfc)
    { domain := domain, status := StatusRegistered }), ?_, ?_, ?_, ?_⟩
  · simp only [RDAPClient.queryServer, h]
    rw [if_neg (by decide), if_neg (by decide)]
  · have hf := (foldl_registrarStep_fields d.entities
      (d.events.foldl (expiryStep rfc)
        { domain := domain, status := StatusRegistered })).2.1
    have he := (foldl_expiryStep_fields rfc d.events
      { domain := domain, status := StatusRegistered }).2.1
    exact hf.trans he
  · have hf := (foldl_registrarStep_fields d.entities
      (d.events.foldl (expiryStep rfc)
        { domain := domain, status := StatusRegistered })).1
    have he := (foldl_expiryStep_fields rfc d.events
      { domain := domain, status := StatusRegistered }).1
    exact hf.trans he
  · rw [foldl_registrarStep_registrar]
    unfold lastRegistrarFn
    cases hf : d.entities.reverse.find?
        (fun e => e.roles.contains "registrar") with
    | some e => rfl
    | none =>
      exact (foldl_expiryStep_fields rfc d.events
        { domain := domain, status := StatusRegistered }).2.2.1

/-- Witness for the amended C4: the counterexample network, where the
last registrar entity is `entB`. -/
theorem rdap_registrar_last_entity_witness :
    ∃ r, RDAPClient.queryServer (fun _ => (none : Option Unit)) c4net "u"
        "x.com" = .ok r ∧
      r.status = StatusRegistered ∧ r.domain = "x.com" ∧
      r.registrar = lastRegistrarFn [entA, entB] :=
  rdap_registrar_last_entity _ c4net "u" "x.com"
    { entities := [entA, entB] } rfl
